import Mathlib

/-!
Verification of the core data pipeline of `plots.ipynb`
(dsa4262_assignment1 mental-health EDA script).

The script loads IHME depression observations and a psychiatrists-per-100k
table, normalizes units, reconciles a join year, joins need vs capacity,
computes a priority index and a top-15 shortlist.

Modelling conventions (shallow embedding):
- a pandas DataFrame is a `List` of record structures, one structure per
  relevant column schema; CSV reading and column renaming happen before the
  embedded boundary, so the records already carry canonical column names;
- a possibly-missing numeric cell (`NaN` after `pd.to_numeric(errors="coerce")`)
  is an `Option ℚ`; real-valued data is modelled by `ℚ` (the script only
  adds, multiplies, divides and compares finite decimal values);
- `pandas` sorts: `groupby` emits group keys in ascending order, and
  `sort_values` is modelled as a stable sort (`List.insertionSort`), i.e.
  rows that compare equal keep their prior relative order, which matches the
  observed behaviour of the script on its small tables;
- a `raise ValueError` is an `Except.error` carrying the data that the
  message interpolates.
-/

/-- One IHME observation row after `load_ihme`s renaming: columns
`location, sex, age, metric, year, value, upper, lower` (the unused free-text
classifiers `cause`/`measure` are omitted).  `year`, `value`, `upper`, `lower`
go through `pd.to_numeric(errors="coerce")`, hence `Option`. -/
structure ObsRow where
  location : String
  sex : String
  age : String
  metric : String
  year : Option Int
  value : Option ℚ
  upper : Option ℚ
  lower : Option ℚ
  deriving DecidableEq, Repr

/-- One psychiatrists-per-100k row after `load_psychiatrists` renaming:
columns `location, year, psy_per100k`. -/
structure PsyRow where
  location : String
  year : Option Int
  psy_per100k : Option ℚ
  deriving DecidableEq, Repr

/-- Substring test on character lists: does `pat` occur as a contiguous run
inside `hay`? -/
def containsSub (hay pat : List Char) : Bool :=
  match hay with
  | [] => pat.isEmpty
  | _ :: t => pat.isPrefixOf hay || containsSub t pat

/-- ASCII lower-casing of one character (the metric labels of the datasets,
such as "Percent" or "Number", are plain ASCII). -/
def charLower (c : Char) : Char :=
  if 65 ≤ c.toNat ∧ c.toNat ≤ 90 then Char.ofNat (c.toNat + 32) else c

/-- `df["metric"].astype(str).str.contains("Percent", case=False, na=False)`
for one cell: the lowered metric text contains the lowered pattern
("percent"). -/
def metricIsPercent (m : String) : Bool :=
  containsSub (m.toList.map charLower) "percent".toList

/-- `df["value"].max() <= 1.0` with pandas `NaN` semantics: the maximum skips
missing cells, and the comparison is `False` when every cell is missing
(max of an all-NaN column is NaN). -/
def maxValLeOne (df : List ObsRow) : Bool :=
  let vals := df.filterMap (·.value)
  !vals.isEmpty && vals.all (fun v => decide (v ≤ 1))

/-- The `*= 100` rescale applied to one row: `value`, `upper` and `lower`
are each multiplied by 100 when present (`NaN * 100` stays `NaN`). -/
def scaleObs (r : ObsRow) : ObsRow :=
  { r with value := r.value.map (· * 100),
           upper := r.upper.map (· * 100),
           lower := r.lower.map (· * 100) }

/-- The unit-normalization core of `load_ihme` (plots.ipynb lines 45-50): if
any row metric contains "Percent" case-insensitively and the maximum
non-missing value is at most 1, every row is rescaled by 100; otherwise the
frame is returned unchanged. -/
def load_ihme (df : List ObsRow) : List ObsRow :=
  let is_percent := df.any (fun r => metricIsPercent r.metric)
  if is_percent && maxValLeOne df then df.map scaleObs else df

/-- Diagnostic payload of the `ValueError` raised by `choose_actionable_year`
(plots.ipynb lines 87-92): the message interpolates
`sorted(list(need_years))[:10]` and the first 10 of the sorted full
psychiatrist year set. -/
structure NoOverlapDiag where
  needPreview : List Int
  psyPreview : List Int
  deriving DecidableEq, Repr

/-- `set(need_all["year"].dropna().unique().astype(int))` as a duplicate-free
list: the years of the need dataset (missing years dropped). -/
def needYears (need : List ObsRow) : List Int :=
  (need.filterMap (·.year)).dedup

/-- `psy.dropna(subset=["psy_per100k"])` restricted to the columns the
reconciler groups on: the `(year, location)` pairs of rows whose capacity
value is present (rows with a missing year are also dropped, because a
missing group key is excluded by `groupby`). -/
def capRows (psy : List PsyRow) : List (Int × String) :=
  psy.filterMap (fun r =>
    match r.year, r.psy_per100k with
    | some y, some _ => some (y, r.location)
    | _, _ => none)

/-- The distinct capacity years carrying at least one non-missing capacity
value (the group keys of `groupby("year")` after the dropna). -/
def capYears (psy : List PsyRow) : List Int :=
  ((capRows psy).map Prod.fst).dedup

/-- `groupby("year")["location"].nunique()` at one year: the number of
distinct locations with a non-missing capacity value in that year. -/
def capCount (psy : List PsyRow) (y : Int) : Nat :=
  (((capRows psy).filter (fun p => p.1 == y)).map Prod.snd).dedup.length

/-- The `nunique()` series before `sort_values`: `groupby` emits one
`(year, distinct-location count)` pair per group key, keys ascending. -/
def psyYearCountsAsc (psy : List PsyRow) : List (Int × Nat) :=
  ((capYears psy).insertionSort (· ≤ ·)).map (fun y => (y, capCount psy y))

/-- Descending order on the count component, the key of
`sort_values(ascending=False)` on the `nunique()` series. -/
def countGE (a b : Int × Nat) : Prop := b.2 ≤ a.2

instance : DecidableRel countGE := fun a b => inferInstanceAs (Decidable (b.2 ≤ a.2))

instance : IsTotal (Int × Nat) countGE := ⟨fun a b => le_total b.2 a.2⟩

instance : IsTrans (Int × Nat) countGE := ⟨fun _ _ _ h1 h2 => le_trans h2 h1⟩

/-- `.sort_values(ascending=False)` on the counts series: stable sort by
count descending of the ascending-year group list, so years with equal
coverage stay in ascending year order. -/
def psyCountsRanked (psy : List PsyRow) : List (Int × Nat) :=
  (psyYearCountsAsc psy).insertionSort countGE

/-- `set(psy["year"].dropna().unique().astype(int))`: every psychiatrist year
(rows with a missing capacity value included), used only in the diagnostic. -/
def allPsyYears (psy : List PsyRow) : List Int :=
  (psy.filterMap (·.year)).dedup

/-- `choose_actionable_year` (plots.ipynb lines 77-93): walk the capacity
years in coverage-ranked order, keep those present in the need year set, and
return the first; raise with previews of both year sets when none remains. -/
def choose_actionable_year (need_all : List ObsRow) (psy : List PsyRow) :
    Except NoOverlapDiag Int :=
  let need_years := needYears need_all
  let candidates :=
    ((psyCountsRanked psy).map Prod.fst).filter (fun y => need_years.contains y)
  match candidates with
  | [] => .error
      { needPreview := (need_years.insertionSort (· ≤ ·)).take 10,
        psyPreview := ((allPsyYears psy).insertionSort (· ≤ ·)).take 10 }
  | y :: _ => .ok y

/-- One row of the inner-join result `merged` (plots.ipynb line 152), before
the priority column is added.  Both dropna steps have already run, so
`dep_prev` and `psy_per100k` are plain rationals. -/
structure JoinedRow where
  location : String
  year : Int
  dep_prev : ℚ
  psy_per100k : ℚ
  deriving DecidableEq, Repr

/-- `need_y` (plots.ipynb lines 148-149): need rows filtered to the chosen
year, `value` renamed to `dep_prev`, missing `dep_prev` dropped; kept as
`(location, dep_prev)` pairs since the year column is constantly `year`. -/
def needFiltered (need : List ObsRow) (year : Int) : List (String × ℚ) :=
  need.filterMap (fun r =>
    if r.year == some year then r.value.map (fun v => (r.location, v)) else none)

/-- `psy_y` (plots.ipynb lines 150-151): capacity rows filtered to the chosen
year with missing `psy_per100k` dropped. -/
def psyFiltered (psy : List PsyRow) (year : Int) : List (String × ℚ) :=
  psy.filterMap (fun r =>
    if r.year == some year then r.psy_per100k.map (fun v => (r.location, v)) else none)

/-- `need_y.merge(psy_y, on=["location", "year"], how="inner")` (line 152):
since both frames carry the constant year column `year`, the join key reduces
to `location`; pandas emits, in left-row order, one row per matching
right row.  The dropna on line 153 is a no-op here because both value columns
are already missing-free. -/
def mergedRows (need : List ObsRow) (psy : List PsyRow) (year : Int) :
    List JoinedRow :=
  (needFiltered need year).flatMap (fun n =>
    ((psyFiltered psy year).filter (fun p => p.1 == n.1)).map (fun p =>
      { location := n.1, year := year, dep_prev := n.2, psy_per100k := p.2 }))

/-- `merged = merged[merged["psy_per100k"] > 0]` (line 154): the joined set
actually used, with non-positive capacities dropped. -/
def joinedSet (need : List ObsRow) (psy : List PsyRow) (year : Int) :
    List JoinedRow :=
  (mergedRows need psy year).filter (fun r => decide ((0 : ℚ) < r.psy_per100k))

/-- The smoothing constant `eps = 0.05` (line 176). -/
def eps : ℚ := 0.05

/-- `priority_index = dep_prev / (psy_per100k + eps)` (line 177). -/
def priorityIndex (need cap : ℚ) : ℚ := need / (cap + eps)

/-- The frame returned by `plot_actionable`: the joined rows with their
`priority_index` column attached. -/
def plot_actionable (need : List ObsRow) (psy : List PsyRow) (year : Int) :
    List (JoinedRow × ℚ) :=
  (joinedSet need psy year).map (fun r => (r, priorityIndex r.dep_prev r.psy_per100k))

/-- Descending order on the priority component, the key of
`sort_values("priority_index", ascending=False)` (line 178). -/
def priGE (a b : JoinedRow × ℚ) : Prop := b.2 ≤ a.2

instance : DecidableRel priGE := fun a b => inferInstanceAs (Decidable (b.2 ≤ a.2))

instance : IsTotal (JoinedRow × ℚ) priGE := ⟨fun a b => le_total b.2 a.2⟩

instance : IsTrans (JoinedRow × ℚ) priGE := ⟨fun _ _ _ h1 h2 => le_trans h2 h1⟩

/-- `top = merged.sort_values("priority_index", ascending=False).head(15)`
(line 178): stable sort by priority descending, first 15 rows. -/
def top15 (need : List ObsRow) (psy : List PsyRow) (year : Int) :
    List (JoinedRow × ℚ) :=
  ((plot_actionable need psy year).insertionSort priGE).take 15

/-- Lexicographic order on character lists (the standard string order used
for the location tie-break the spec prescribes). -/
def lexLE : List Char → List Char → Bool
  | [], _ => true
  | _ :: _, [] => false
  | a :: as, b :: bs => if a < b then true else if a = b then lexLE as bs else false

/-- Lexicographic order on strings. -/
def strLE (a b : String) : Bool := lexLE a.toList b.toList

/-- Modelled from the spec (not from the source): the total order the spec
prescribes for the shortlist, `priority_index` descending with ties broken by
`location` ascending.  Used only to compare the spec with the code. -/
def specPriOrder (a b : JoinedRow × ℚ) : Prop :=
  b.2 < a.2 ∨ (a.2 = b.2 ∧ strLE a.1.location b.1.location = true)

instance : DecidableRel specPriOrder := fun a b =>
  inferInstanceAs (Decidable (b.2 < a.2 ∨ (a.2 = b.2 ∧ strLE a.1.location b.1.location = true)))

/-- Modelled from the spec: the shortlist that `location`-ascending
tie-breaking would produce. -/
def specTop15 (need : List ObsRow) (psy : List PsyRow) (year : Int) :
    List (JoinedRow × ℚ) :=
  ((plot_actionable need psy year).insertionSort specPriOrder).take 15

/-- `sub` of `plot_micro_age_sex` (plots.ipynb lines 113-114): micro rows
filtered to the requested year and locations, missing values dropped. -/
def microSub (df : List ObsRow) (year : Int) (locations : List String) :
    List ObsRow :=
  (df.filter (fun r => r.year == some year && locations.contains r.location)).filter
    (fun r => r.value.isSome)

/-- The data-selection core of `plot_micro_age_sex` (plots.ipynb lines
112-122): filter to year and locations, drop missing values, and require both
a "Male" and a "Female" row among the survivors; on failure the raised
message interpolates `sorted(list(sexes))`, on success the rows restricted to
the two sexes are charted. -/
def plot_micro_age_sex (df : List ObsRow) (year : Int) (locations : List String) :
    Except (List String) (List ObsRow) :=
  let sub := microSub df year locations
  let sexes := (sub.map (·.sex)).dedup
  if sexes.contains "Male" && sexes.contains "Female" then
    .ok (sub.filter (fun r => r.sex == "Male" || r.sex == "Female"))
  else
    .error (sexes.insertionSort (· ≤ ·))

/-! ## Sample data used by the witness theorems -/

/-- Builds an observation row with the fields the claims exercise; the bound
columns `age`, `upper`, `lower` take fixed neutral values. -/
def mkObs (loc sex metric : String) (year : Option Int) (value : Option ℚ) :
    ObsRow :=
  { location := loc, sex := sex, age := "All ages", metric := metric,
    year := year, value := value, upper := none, lower := none }

/-- Builds a capacity row. -/
def mkPsy (loc : String) (year : Option Int) (v : Option ℚ) : PsyRow :=
  { location := loc, year := year, psy_per100k := v }

/-- A frame mixing a percent-metric row with a number-metric row, all values
at most 1. -/
def sampleMixed : List ObsRow :=
  [mkObs "Global" "Both" "Percent" (some 2020) (some 1),
   mkObs "Global" "Both" "Number" (some 2020) (some 0)]

/-- A frame whose rows all carry the metric label "Percent". -/
def sampleShared : List ObsRow :=
  [mkObs "Global" "Both" "Percent" (some 2020) (some 1),
   mkObs "Global" "Female" "Percent" (some 2020) (some 0)]

/-! ## Claim C3 and claim C10: the Unit Normalizer -/

/-- Claim C3: for a collection whose rows share one metric label, if that
label contains the token "percent" case-insensitively and the maximum
observed value is at most 1, every output value (with `upper` and `lower`
when present) is 100 times the input; otherwise the output is the input
unchanged (identity transform). -/
theorem load_ihme_collection_rule (df : List ObsRow) (m : String)
    (hshare : ∀ r ∈ df, r.metric = m) :
    ((metricIsPercent m && maxValLeOne df) = true → load_ihme df = df.map scaleObs) ∧
    ((metricIsPercent m && maxValLeOne df) = false → load_ihme df = df) := by
  cases df with
  | nil => simp [load_ihme, maxValLeOne]
  | cons a t =>
    have hm : a.metric = m := hshare a (List.mem_cons_self a t)
    have key : (a :: t).any (fun r => metricIsPercent r.metric) = metricIsPercent m := by
      cases hp : metricIsPercent m with
      | true =>
        apply List.any_eq_true.mpr
        exact ⟨a, List.mem_cons_self a t, by rw [hm, hp]⟩
      | false =>
        apply List.any_eq_false.mpr
        intro r hr
        rw [hshare r hr, hp]
        simp
    constructor
    · intro h
      rw [Bool.and_eq_true] at h
      simp [load_ihme, key, h.1, h.2]
    · intro h
      simp [load_ihme, key, h]

/-- Witness for claim C3 at a concrete shared-metric frame. -/
theorem load_ihme_collection_rule_witness :
    load_ihme sampleShared = sampleShared.map scaleObs :=
  (load_ihme_collection_rule sampleShared "Percent" (by decide)).1 (by decide)

/-- Claim C10: one row whose metric label contains "Percent" (case-insensitive)
is enough to trigger the collection-level rescale when the overall maximum
value is at most 1, and then every row is multiplied by 100, the rows with a
non-percent metric label included. -/
theorem load_ihme_any_percent_rescales_all (df : List ObsRow)
    (h1 : ∃ r ∈ df, metricIsPercent r.metric = true)
    (h2 : maxValLeOne df = true) :
    load_ihme df = df.map scaleObs := by
  have ha : df.any (fun r => metricIsPercent r.metric) = true :=
    List.any_eq_true.mpr h1
  simp [load_ihme, ha, h2]

/-- Witness for claim C10 at a frame mixing percent and number rows. -/
theorem load_ihme_any_percent_rescales_all_witness :
    load_ihme sampleMixed = sampleMixed.map scaleObs :=
  load_ihme_any_percent_rescales_all sampleMixed (by decide) (by decide)

/-! ## Claim C4: the priority-index formula -/

/-- Claim C4: every record of the joined set carries
`priority_index = need / (capacity + 0.05)` with the smoothing constant fixed
at 0.05, and the formula sends need 20 with capacity 0 to 400 and need 20
with capacity 10 to 20 / 10.05. -/
theorem priority_index_formula :
    (∀ need psy year r pr, (r, pr) ∈ plot_actionable need psy year →
      pr = r.dep_prev / (r.psy_per100k + 0.05)) ∧
    priorityIndex 20 0 = 400 ∧ priorityIndex 20 10 = 20 / 10.05 := by
  refine ⟨?_, by norm_num [priorityIndex, eps], by norm_num [priorityIndex, eps]⟩
  intro need psy year r pr hmem
  rw [plot_actionable, List.mem_map] at hmem
  obtain ⟨x, -, hx⟩ := hmem
  simp only [Prod.mk.injEq] at hx
  obtain ⟨rfl, rfl⟩ := hx
  rfl

/-- One-row need and capacity frames that join to a single record. -/
def needA : List ObsRow := [mkObs "Albania" "Both" "Percent" (some 2020) (some 20)]

/-- Capacity frame matching `needA`. -/
def psyA : List PsyRow := [mkPsy "Albania" (some 2020) (some 10)]

/-- The single joined row produced from `needA` and `psyA`. -/
def jrowA : JoinedRow :=
  { location := "Albania", year := 2020, dep_prev := 20, psy_per100k := 10 }

section

attribute [local semireducible] Rat.inv Rat.mul Rat.add Rat.ofScientific

/-- Witness for claim C4 at the concrete one-row join. -/
theorem priority_index_formula_witness :
    (400 / 201 : ℚ) = jrowA.dep_prev / (jrowA.psy_per100k + 0.05) :=
  priority_index_formula.1 needA psyA 2020 jrowA (400 / 201) (by decide)

end

/-! ## Claim C6: non-positive capacities are filtered out -/

/-- Claim C6: no record of the joined output has a non-positive capacity
value (missing values cannot even reach the joined set, whose capacity field
is missing-free by construction), and a merged record with non-positive
capacity is dropped rather than raising an error. -/
theorem joined_capacity_positive (need : List ObsRow) (psy : List PsyRow)
    (year : Int) :
    (∀ r ∈ joinedSet need psy year, 0 < r.psy_per100k) ∧
    (∀ r ∈ mergedRows need psy year, r.psy_per100k ≤ 0 →
      r ∉ joinedSet need psy year) := by
  constructor
  · intro r hr
    rw [joinedSet, List.mem_filter] at hr
    exact of_decide_eq_true hr.2
  · intro r _ hle hin
    rw [joinedSet, List.mem_filter] at hin
    exact absurd (of_decide_eq_true hin.2) (not_lt.mpr hle)

/-- Need frame with two locations, one of which has capacity 0 in `psyB`. -/
def needB : List ObsRow :=
  [mkObs "Algeria" "Both" "Percent" (some 2020) (some 20),
   mkObs "Belgium" "Both" "Percent" (some 2020) (some 20)]

/-- Capacity frame pairing a zero capacity (Algeria, which has a matching
need record) with a positive one (Belgium). -/
def psyB : List PsyRow :=
  [mkPsy "Algeria" (some 2020) (some 0), mkPsy "Belgium" (some 2020) (some 10)]

/-- The surviving joined row of `needB` and `psyB`. -/
def jrowB : JoinedRow :=
  { location := "Belgium", year := 2020, dep_prev := 20, psy_per100k := 10 }

/-- Witness for claim C6: in the concrete join where Algeria has capacity 0
and a matching need record, the surviving record has positive capacity. -/
theorem joined_capacity_positive_witness : (0 : ℚ) < jrowB.psy_per100k :=
  (joined_capacity_positive needB psyB 2020).1 jrowB (by decide)

/-! ## Claim C7: monotonicity of the priority index -/

/-- Counterexample to claim C7 as stated: at need value 0 the index is
constant in the capacity (not strictly decreasing), and at the (out-of-range)
fixed capacity -1 the index strictly decreases in the need value. -/
theorem priority_index_monotone_counterexample :
    priorityIndex 0 1 = priorityIndex 0 2 ∧ (1 : ℚ) < 2 ∧
    priorityIndex 2 (-1) < priorityIndex 1 (-1) ∧ (1 : ℚ) < 2 := by
  norm_num [priorityIndex, eps]

/-- Claim C7 amended: for any fixed positive need value the priority index
strictly decreases as capacity increases over positive capacities, and for
any fixed positive capacity it strictly increases as the need increases. -/
theorem priority_index_monotone :
    (∀ n c₁ c₂ : ℚ, 0 < n → 0 < c₁ → c₁ < c₂ →
      priorityIndex n c₂ < priorityIndex n c₁) ∧
    (∀ c n₁ n₂ : ℚ, 0 < c → n₁ < n₂ → priorityIndex n₁ c < priorityIndex n₂ c) := by
  have he : (0 : ℚ) < eps := by norm_num [eps]
  constructor
  · intro n c₁ c₂ hn hc₁ hc
    unfold priorityIndex
    exact div_lt_div_of_pos_left hn (add_pos hc₁ he) (add_lt_add_right hc eps)
  · intro c n₁ n₂ hc h
    unfold priorityIndex
    exact (div_lt_div_iff_of_pos_right (add_pos hc he)).mpr h

/-- Witness for the amended claim C7 at concrete values. -/
theorem priority_index_monotone_witness :
    priorityIndex 20 2 < priorityIndex 20 1 ∧
    priorityIndex 10 5 < priorityIndex 20 5 :=
  ⟨priority_index_monotone.1 20 1 2 (by norm_num) (by norm_num) (by norm_num),
   priority_index_monotone.2 5 10 20 (by norm_num) (by norm_num)⟩

/-! ## Claim C8: the join is inner -/

/-- Claim C8: a location absent from either filtered side of the join for
the chosen year never appears in the joined output. -/
theorem join_is_inner (need : List ObsRow) (psy : List PsyRow) (year : Int)
    (loc : String)
    (h : loc ∉ (needFiltered need year).map Prod.fst ∨
         loc ∉ (psyFiltered psy year).map Prod.fst) :
    ∀ r ∈ joinedSet need psy year, r.location ≠ loc := by
  intro r hr heq
  rw [joinedSet, List.mem_filter] at hr
  have hm := hr.1
  rw [mergedRows, List.mem_flatMap] at hm
  obtain ⟨n, hn, hmap⟩ := hm
  rw [List.mem_map] at hmap
  obtain ⟨p, hp, hre⟩ := hmap
  rw [List.mem_filter] at hp
  have hpn : p.1 = n.1 := by simpa using hp.2
  have hloc : r.location = n.1 := by rw [← hre]
  rw [hloc] at heq
  rcases h with h | h
  · exact h (List.mem_map.mpr ⟨n, hn, heq⟩)
  · exact h (List.mem_map.mpr ⟨p, hp.1, by rw [hpn]; exact heq⟩)

/-- Need frame where Chad appears only on the need side. -/
def needC : List ObsRow :=
  [mkObs "Chad" "Both" "Percent" (some 2020) (some 20),
   mkObs "Belgium" "Both" "Percent" (some 2020) (some 20)]

/-- Capacity frame where Denmark appears only on the capacity side. -/
def psyC : List PsyRow :=
  [mkPsy "Belgium" (some 2020) (some 10), mkPsy "Denmark" (some 2020) (some 7)]

/-- Witness for claim C8: Chad is need-only in the concrete join, so the
surviving joined record is not Chad. -/
theorem join_is_inner_witness : jrowB.location ≠ "Chad" :=
  join_is_inner needC psyC 2020 "Chad" (Or.inr (by decide)) jrowB (by decide)

/-! ## Claim C9: the micro chart requires both sex splits -/

/-- Claim C9: the micro age/sex operation raises exactly when the records
surviving the year/location filter and the missing-value drop do not contain
both a "Male" and a "Female" row, and proceeds when both are present. -/
theorem micro_sex_split_error_iff (df : List ObsRow) (year : Int)
    (locations : List String) :
    ((∃ e, plot_micro_age_sex df year locations = .error e) ↔
      ¬ ((∃ r ∈ microSub df year locations, r.sex = "Male") ∧
         (∃ r ∈ microSub df year locations, r.sex = "Female"))) ∧
    ((∃ a, plot_micro_age_sex df year locations = .ok a) ↔
      ((∃ r ∈ microSub df year locations, r.sex = "Male") ∧
       (∃ r ∈ microSub df year locations, r.sex = "Female"))) := by
  have hmem : ∀ s : String,
      (((microSub df year locations).map (·.sex)).dedup.contains s = true) ↔
        ∃ r ∈ microSub df year locations, r.sex = s := by
    intro s
    rw [List.elem_iff, List.mem_dedup, List.mem_map]
  cases hc : ((microSub df year locations).map (·.sex)).dedup.contains "Male" &&
      ((microSub df year locations).map (·.sex)).dedup.contains "Female" with
  | false =>
    rw [Bool.and_eq_false_iff] at hc
    have hnot : ¬ ((∃ r ∈ microSub df year locations, r.sex = "Male") ∧
        (∃ r ∈ microSub df year locations, r.sex = "Female")) := by
      rcases hc with hc | hc
      · exact fun h => Bool.false_ne_true (hc ▸ (hmem "Male").mpr h.1)
      · exact fun h => Bool.false_ne_true (hc ▸ (hmem "Female").mpr h.2)
    have hncond : ¬ (((microSub df year locations).map (·.sex)).dedup.contains "Male" &&
        ((microSub df year locations).map (·.sex)).dedup.contains "Female") = true := by
      intro hcc
      rw [Bool.and_eq_true] at hcc
      rcases hc with hc | hc
      · rw [hc] at hcc; exact Bool.false_ne_true hcc.1
      · rw [hc] at hcc; exact Bool.false_ne_true hcc.2
    constructor
    · constructor
      · exact fun _ => hnot
      · intro _
        exact ⟨_, by simp only [plot_micro_age_sex]; rw [if_neg hncond]⟩
    · constructor
      · rintro ⟨a, ha⟩
        exfalso
        simp only [plot_micro_age_sex] at ha
        rw [if_neg hncond] at ha
        exact Except.noConfusion ha
      · exact fun h => absurd h hnot
  | true =>
    have hcc := hc
    rw [Bool.and_eq_true] at hcc
    have hboth : (∃ r ∈ microSub df year locations, r.sex = "Male") ∧
        (∃ r ∈ microSub df year locations, r.sex = "Female") :=
      ⟨(hmem "Male").mp hcc.1, (hmem "Female").mp hcc.2⟩
    constructor
    · constructor
      · rintro ⟨e, he⟩
        exfalso
        simp only [plot_micro_age_sex] at he
        rw [if_pos hc] at he
        exact Except.noConfusion he
      · exact fun h => absurd hboth h
    · constructor
      · exact fun _ => hboth
      · intro _
        exact ⟨_, by simp only [plot_micro_age_sex]; rw [if_pos hc]⟩

/-- A micro frame whose 2020 rows carry only the sex label "Both". -/
def microBothOnly : List ObsRow :=
  [mkObs "Singapore" "Both" "Percent" (some 2020) (some 1)]

/-- Witness for claim C9: a concrete micro frame with only a "Both" sex
label makes the operation raise. -/
theorem micro_sex_split_error_iff_witness :
    ∃ e, plot_micro_age_sex microBothOnly 2020 ["Singapore"] = .error e :=
  (micro_sex_split_error_iff microBothOnly 2020 ["Singapore"]).1.mpr (by decide)

/-! ## Claim C5 and claim C1: the Year Reconciler -/

/-- Elements of the grouped count series are exactly the capacity years
paired with their distinct-location counts. -/
theorem mem_psyYearCountsAsc_shape {psy : List PsyRow} {e : Int × Nat}
    (he : e ∈ psyYearCountsAsc psy) :
    e = (e.1, capCount psy e.1) ∧ e.1 ∈ capYears psy := by
  rw [psyYearCountsAsc, List.mem_map] at he
  obtain ⟨y, hy, rfl⟩ := he
  rw [List.mem_insertionSort] at hy
  exact ⟨rfl, hy⟩

/-- A year appears in the ranked count series exactly when it is a capacity
year with at least one non-missing value. -/
theorem mem_map_fst_psyCountsRanked (psy : List PsyRow) (y : Int) :
    y ∈ (psyCountsRanked psy).map Prod.fst ↔ y ∈ capYears psy := by
  rw [List.mem_map]
  constructor
  · rintro ⟨e, he, rfl⟩
    rw [psyCountsRanked, List.mem_insertionSort] at he
    exact (mem_psyYearCountsAsc_shape he).2
  · intro hy
    refine ⟨(y, capCount psy y), ?_, rfl⟩
    rw [psyCountsRanked, List.mem_insertionSort, psyYearCountsAsc, List.mem_map]
    exact ⟨y, by rw [List.mem_insertionSort]; exact hy, rfl⟩

/-- Claim C5: the Year Reconciler raises exactly when no capacity year with
at least one non-missing capacity value lies in the need year set, and the
diagnostic then carries the first ten of each year set in ascending order; in
particular no year is returned in that case. -/
theorem choose_actionable_year_no_overlap (need : List ObsRow)
    (psy : List PsyRow) (d : NoOverlapDiag) :
    choose_actionable_year need psy = .error d ↔
      ((¬ ∃ y, y ∈ needYears need ∧ y ∈ capYears psy) ∧
       d.needPreview = ((needYears need).insertionSort (· ≤ ·)).take 10 ∧
       d.psyPreview = ((allPsyYears psy).insertionSort (· ≤ ·)).take 10) := by
  simp only [choose_actionable_year]
  cases hc : ((psyCountsRanked psy).map Prod.fst).filter
      (fun y => (needYears need).contains y) with
  | nil =>
    have hno : ¬ ∃ y, y ∈ needYears need ∧ y ∈ capYears psy := by
      rintro ⟨y, hy1, hy2⟩
      have hmem : y ∈ ((psyCountsRanked psy).map Prod.fst).filter
          (fun y => (needYears need).contains y) := by
        rw [List.mem_filter]
        exact ⟨(mem_map_fst_psyCountsRanked psy y).mpr hy2, List.elem_iff.mpr hy1⟩
      rw [hc] at hmem
      exact absurd hmem (List.not_mem_nil y)
    constructor
    · intro h
      have hd := Except.error.inj h
      exact ⟨hno, by rw [← hd], by rw [← hd]⟩
    · rintro ⟨-, h1, h2⟩
      have hd : d = { needPreview := ((needYears need).insertionSort (· ≤ ·)).take 10,
                      psyPreview := ((allPsyYears psy).insertionSort (· ≤ ·)).take 10 } := by
        cases d
        simp only [NoOverlapDiag.mk.injEq]
        exact ⟨h1, h2⟩
      rw [hd]
  | cons y t =>
    constructor
    · intro h
      exact Except.noConfusion h
    · rintro ⟨hno, -, -⟩
      exfalso
      apply hno
      have hy : y ∈ ((psyCountsRanked psy).map Prod.fst).filter
          (fun y => (needYears need).contains y) := by
        rw [hc]
        exact List.mem_cons_self y t
      rw [List.mem_filter] at hy
      exact ⟨y, List.elem_iff.mp hy.2, (mem_map_fst_psyCountsRanked psy y).mp hy.1⟩

/-- A need frame with years 2010 and 2015 only. -/
def needD : List ObsRow :=
  [mkObs "Singapore" "Both" "Percent" (some 2010) (some 1),
   mkObs "Singapore" "Both" "Percent" (some 2015) (some 1)]

/-- A capacity frame with years 2018 and 2019 only. -/
def psyD : List PsyRow :=
  [mkPsy "Singapore" (some 2018) (some 3), mkPsy "Singapore" (some 2019) (some 4)]

/-- Witness for claim C5: need years {2010, 2015} against capacity years
{2018, 2019} raise, with both previews sorted ascending. -/
theorem choose_actionable_year_no_overlap_witness :
    choose_actionable_year needD psyD =
      .error { needPreview := [2010, 2015], psyPreview := [2018, 2019] } :=
  (choose_actionable_year_no_overlap needD psyD
    { needPreview := [2010, 2015], psyPreview := [2018, 2019] }).mpr
    ⟨by decide, by decide, by decide⟩

/-- If a list is pairwise `R` and `R b a` fails for two distinct members,
`a` occurs before `b`: `[a, b]` is a sublist. -/
theorem pair_sublist_of_pairwise {α : Type*} {R : α → α → Prop} :
    ∀ {l : List α} {a b : α}, l.Pairwise R → a ∈ l → b ∈ l → a ≠ b →
      ¬ R b a → List.Sublist [a, b] l := by
  intro l
  induction l with
  | nil => intro a b _ ha _ _ _; exact absurd ha (List.not_mem_nil a)
  | cons x t ih =>
    intro a b hp ha hb hab hnR
    rw [List.pairwise_cons] at hp
    rcases List.mem_cons.mp ha with rfl | ha'
    · rcases List.mem_cons.mp hb with rfl | hb'
      · exact absurd rfl hab
      · exact List.cons_sublist_cons.mpr (List.singleton_sublist.mpr hb')
    · rcases List.mem_cons.mp hb with rfl | hb'
      · exact absurd (hp.1 a ha') hnR
      · exact (ih hp.2 ha' hb' hab hnR).cons x

/-- In a duplicate-free list two members cannot occur in both relative
orders. -/
theorem sublist_pair_antisym {α : Type*} {a b : α} :
    ∀ {l : List α}, l.Nodup → List.Sublist [a, b] l →
      List.Sublist [b, a] l → a = b := by
  intro l
  induction l with
  | nil =>
    intro _ h1 _
    exact absurd (List.sublist_nil.mp h1) (by simp)
  | cons x t ih =>
    intro hn h1 h2
    rw [List.nodup_cons] at hn
    cases h1 with
    | cons _ h1' =>
      cases h2 with
      | cons _ h2' => exact ih hn.2 h1' h2'
      | cons₂ _ h2' =>
        exact absurd (h1'.subset (by simp)) hn.1
    | cons₂ _ h1' =>
      cases h2 with
      | cons _ h2' =>
        exact absurd (h2'.subset (by simp)) hn.1
      | cons₂ _ h2' => rfl

/-- The grouped count series lists strictly increasing years (`groupby`
emits each distinct year once, ascending). -/
theorem pairwise_fst_lt_psyYearCountsAsc (psy : List PsyRow) :
    (psyYearCountsAsc psy).Pairwise (fun a b => a.1 < b.1) := by
  rw [psyYearCountsAsc, List.pairwise_map]
  have hs : ((capYears psy).insertionSort (· ≤ ·)).Pairwise (· ≤ ·) :=
    List.sorted_insertionSort _ _
  have hn : ((capYears psy).insertionSort (· ≤ ·)).Nodup :=
    ((List.perm_insertionSort _ _).nodup_iff).mpr (List.nodup_dedup _)
  exact (hs.and hn).imp (fun h => lt_of_le_of_ne h.1 h.2)

/-- The ranked count series has no duplicate entries. -/
theorem nodup_psyCountsRanked (psy : List PsyRow) :
    (psyCountsRanked psy).Nodup := by
  rw [psyCountsRanked]
  apply ((List.perm_insertionSort _ _).nodup_iff).mpr
  exact (pairwise_fst_lt_psyYearCountsAsc psy).imp
    (fun h heq => absurd (heq ▸ h) (lt_irrefl _))

/-- Claim C1: when the need years and the covered capacity years intersect,
the Year Reconciler returns a year of the intersection whose distinct-location
capacity coverage is maximal among intersecting years, and among equally
covered intersecting years it returns the smallest. -/
theorem choose_actionable_year_spec (need : List ObsRow) (psy : List PsyRow)
    (y : Int) (hy1 : y ∈ needYears need) (hy2 : y ∈ capYears psy) :
    ∃ y0, choose_actionable_year need psy = .ok y0 ∧
      y0 ∈ needYears need ∧ y0 ∈ capYears psy ∧
      (∀ y1, y1 ∈ needYears need → y1 ∈ capYears psy →
        capCount psy y1 ≤ capCount psy y0) ∧
      (∀ y1, y1 ∈ needYears need → y1 ∈ capYears psy →
        capCount psy y1 = capCount psy y0 → y0 ≤ y1) := by
  have hsorted : (psyCountsRanked psy).Pairwise countGE :=
    List.sorted_insertionSort countGE (psyYearCountsAsc psy)
  have hmk : ∀ y1, y1 ∈ needYears need → y1 ∈ capYears psy →
      (y1, capCount psy y1) ∈
        (psyCountsRanked psy).filter (fun e => (needYears need).contains e.1) := by
    intro y1 h1 h2
    rw [List.mem_filter]
    constructor
    · rw [psyCountsRanked, List.mem_insertionSort, psyYearCountsAsc, List.mem_map]
      exact ⟨y1, by rw [List.mem_insertionSort]; exact h2, rfl⟩
    · exact List.elem_iff.mpr h1
  obtain ⟨e0, rest, hpc⟩ : ∃ e0 rest,
      (psyCountsRanked psy).filter (fun e => (needYears need).contains e.1) =
        e0 :: rest := by
    cases hq : (psyCountsRanked psy).filter (fun e => (needYears need).contains e.1) with
    | nil =>
      have := hmk y hy1 hy2
      rw [hq] at this
      exact absurd this (List.not_mem_nil _)
    | cons a l => exact ⟨a, l, rfl⟩
  have hfm : ((psyCountsRanked psy).map Prod.fst).filter
      (fun z => (needYears need).contains z) = e0.1 :: rest.map Prod.fst := by
    rw [List.filter_map]
    have hcomp : ((fun z => (needYears need).contains z) ∘ Prod.fst) =
        (fun e : Int × Nat => (needYears need).contains e.1) := rfl
    rw [hcomp, hpc, List.map_cons]
  have hchoose : choose_actionable_year need psy = .ok e0.1 := by
    simp only [choose_actionable_year]
    rw [hfm]
  have he0pc : e0 ∈
      (psyCountsRanked psy).filter (fun e => (needYears need).contains e.1) := by
    rw [hpc]
    exact List.mem_cons_self _ _
  have he0r : e0 ∈ psyCountsRanked psy := List.mem_of_mem_filter he0pc
  have he0asc : e0 ∈ psyYearCountsAsc psy := by
    rw [psyCountsRanked, List.mem_insertionSort] at he0r
    exact he0r
  obtain ⟨he0shape, he0cap⟩ := mem_psyYearCountsAsc_shape he0asc
  have hcap0 : capCount psy e0.1 = e0.2 := (congrArg Prod.snd he0shape).symm
  have he0need : e0.1 ∈ needYears need :=
    List.elem_iff.mp (List.mem_filter.mp he0pc).2
  have hdom : ∀ e ∈ rest, e.2 ≤ e0.2 := by
    have hps : (e0 :: rest).Pairwise countGE := by
      rw [← hpc]
      exact List.Pairwise.sublist (List.filter_sublist _) hsorted
    rw [List.pairwise_cons] at hps
    exact hps.1
  refine ⟨e0.1, hchoose, he0need, he0cap, ?_, ?_⟩
  · intro y1 h1 h2
    have hy1c := hmk y1 h1 h2
    rw [hpc] at hy1c
    rw [hcap0]
    rcases List.mem_cons.mp hy1c with heq | hrest
    · exact le_of_eq (congrArg Prod.snd heq)
    · exact hdom _ hrest
  · intro y1 h1 h2 hceq
    by_contra hcon
    push_neg at hcon
    have hy1c := hmk y1 h1 h2
    have hne : ((y1, capCount psy y1) : Int × Nat) ≠ e0 := by
      intro h
      have hfst : y1 = e0.1 := congrArg Prod.fst h
      rw [hfst] at hcon
      exact absurd hcon (lt_irrefl _)
    have hsub1 : List.Sublist [e0, (y1, capCount psy y1)] (psyCountsRanked psy) := by
      have hstep : List.Sublist [e0, (y1, capCount psy y1)]
          ((psyCountsRanked psy).filter (fun e => (needYears need).contains e.1)) := by
        rw [hpc]
        rcases List.mem_cons.mp (hpc ▸ hy1c) with heq | hrest
        · exact absurd heq hne
        · exact List.cons_sublist_cons.mpr (List.singleton_sublist.mpr hrest)
      exact hstep.trans (List.filter_sublist _)
    have he1asc : ((y1, capCount psy y1) : Int × Nat) ∈ psyYearCountsAsc psy := by
      rw [psyYearCountsAsc, List.mem_map]
      exact ⟨y1, by rw [List.mem_insertionSort]; exact h2, rfl⟩
    have hpair : List.Sublist [((y1, capCount psy y1) : Int × Nat), e0]
        (psyYearCountsAsc psy) := by
      apply pair_sublist_of_pairwise (pairwise_fst_lt_psyYearCountsAsc psy)
        he1asc he0asc hne
      exact not_lt.mpr (le_of_lt hcon)
    have hsub2 : List.Sublist [((y1, capCount psy y1) : Int × Nat), e0]
        (psyCountsRanked psy) := by
      rw [psyCountsRanked]
      apply List.pair_sublist_insertionSort ?_ hpair
      show countGE (y1, capCount psy y1) e0
      show e0.2 ≤ capCount psy y1
      rw [← hcap0, hceq]
    exact hne ((sublist_pair_antisym (nodup_psyCountsRanked psy) hsub1 hsub2).symm)

/-- A need frame containing the years 2010 and 2011. -/
def needE : List ObsRow :=
  [mkObs "Singapore" "Both" "Percent" (some 2010) (some 1),
   mkObs "Singapore" "Both" "Percent" (some 2011) (some 1)]

/-- A capacity frame where 2010 and 2011 each cover one distinct location:
a coverage tie that must resolve to the smaller year. -/
def psyE : List PsyRow :=
  [mkPsy "Singapore" (some 2011) (some 4), mkPsy "Singapore" (some 2010) (some 3)]

/-- Witness for claim C1 at a concrete coverage tie. -/
theorem choose_actionable_year_spec_witness :
    ∃ y0, choose_actionable_year needE psyE = .ok y0 ∧
      y0 ∈ needYears needE ∧ y0 ∈ capYears psyE ∧
      (∀ y1, y1 ∈ needYears needE → y1 ∈ capYears psyE →
        capCount psyE y1 ≤ capCount psyE y0) ∧
      (∀ y1, y1 ∈ needYears needE → y1 ∈ capYears psyE →
        capCount psyE y1 = capCount psyE y0 → y0 ≤ y1) :=
  choose_actionable_year_spec needE psyE 2010 (by decide) (by decide)

/-! ## Claim C2: the top-15 shortlist order -/

/-- Need frame whose insertion order is Belgium before Albania (both tie on
the priority index against `psyF`). -/
def needF : List ObsRow :=
  [mkObs "Belgium" "Both" "Percent" (some 2020) (some 20),
   mkObs "Albania" "Both" "Percent" (some 2020) (some 20)]

/-- Capacity frame giving Belgium and Albania the same capacity. -/
def psyF : List PsyRow :=
  [mkPsy "Belgium" (some 2020) (some 10), mkPsy "Albania" (some 2020) (some 10)]

/-- Sixteen single-letter locations in descending insertion order. -/
def locsG : List String :=
  ["P", "O", "N", "M", "L", "K", "J", "I", "H", "G", "F", "E", "D", "C", "B", "A"]

/-- Sixteen equal-need rows in descending location order. -/
def needG : List ObsRow :=
  locsG.map (fun l => mkObs l "Both" "Percent" (some 2020) (some 20))

/-- Sixteen equal-capacity rows matching `needG`. -/
def psyG : List PsyRow := locsG.map (fun l => mkPsy l (some 2020) (some 10))

/-- The joined record of location "A" in the sixteen-row tie. -/
def jrowA16 : JoinedRow :=
  { location := "A", year := 2020, dep_prev := 20, psy_per100k := 10 }

section

attribute [local semireducible] Rat.inv Rat.mul Rat.add Rat.ofScientific

/-- Counterexample to claim C2 as stated: on a priority tie the code keeps
the joined-set insertion order, not ascending locations, so the shortlist
differs from the spec-ordered shortlist; with sixteen tied records even the
selected set differs (location "A" is in the spec shortlist but not in the
code shortlist). -/
theorem top15_tiebreak_counterexample :
    top15 needF psyF 2020 ≠ specTop15 needF psyF 2020 ∧
    (jrowA16, (400 / 201 : ℚ)) ∈ specTop15 needG psyG 2020 ∧
    (jrowA16, (400 / 201 : ℚ)) ∉ top15 needG psyG 2020 := by
  refine ⟨by decide, by decide, by decide⟩

end

/-- Claim C2 amended: the shortlist is the first 15 records under
`priority_index` descending with ties kept in joined-set insertion order
(stable sort); it is sorted, it dominates every record left out, and any two
records already in descending-priority input order keep their relative order
in the ranking. -/
theorem top15_amended (need : List ObsRow) (psy : List PsyRow) (year : Int) :
    List.Sorted priGE (top15 need psy year) ∧
    (∃ l, (plot_actionable need psy year).Perm (top15 need psy year ++ l) ∧
      ∀ a ∈ top15 need psy year, ∀ b ∈ l, b.2 ≤ a.2) ∧
    (∀ a b, List.Sublist [a, b] (plot_actionable need psy year) → b.2 ≤ a.2 →
      List.Sublist [a, b] ((plot_actionable need psy year).insertionSort priGE)) := by
  have hsort := List.sorted_insertionSort priGE (plot_actionable need psy year)
  have hsplit : top15 need psy year ++
      ((plot_actionable need psy year).insertionSort priGE).drop 15 =
      (plot_actionable need psy year).insertionSort priGE :=
    List.take_append_drop 15 _
  refine ⟨?_,
    ⟨((plot_actionable need psy year).insertionSort priGE).drop 15, ?_, ?_⟩, ?_⟩
  · exact List.Pairwise.sublist (List.take_sublist _ _) hsort
  · rw [hsplit]
    exact (List.perm_insertionSort priGE _).symm
  · intro a ha b hb
    have hP : List.Pairwise priGE (top15 need psy year ++
        ((plot_actionable need psy year).insertionSort priGE).drop 15) := by
      rw [hsplit]
      exact hsort
    exact (List.pairwise_append.mp hP).2.2 a ha b hb
  · intro a b hsub hle
    exact List.pair_sublist_insertionSort hle hsub

section

attribute [local semireducible] Rat.inv Rat.mul Rat.add Rat.ofScientific

/-- Witness for the amended claim C2: in the concrete tie, the pair in
insertion order stays in that order in the ranking. -/
theorem top15_amended_witness :
    List.Sublist
      [(jrowB, (400 / 201 : ℚ)),
       ({ location := "Albania", year := 2020, dep_prev := 20,
          psy_per100k := 10 : JoinedRow }, (400 / 201 : ℚ))]
      ((plot_actionable needF psyF 2020).insertionSort priGE) :=
  (top15_amended needF psyF 2020).2.2 _ _ (by decide) (by decide)

end
